import Mathlib

/-!
Verification of the `hive` client (src/hive/__init__.py): a shallow embedding of
`AioHive.__init__`, `AioHive.execute`, `AioHive.fetch`, `AioHive.iter` (with its
inner `to_frame` and `closing` closures) and `SyncedHive.iter`, together with
proofs about cursor lifecycle, chunk indexing and constructor validation.

Modelling conventions:
* A pandas `DataFrame` is modelled by `Table`: column labels, row data (cells as
  `Int`) and an explicit row index (pandas gives a fresh frame the index
  `range(len(rows))`; `data.index += k` shifts every label by `k`).
* Remote cursor operations (`self.cli.cursor()`, `cur.execute`, `cur.getSchema`,
  `cur.fetch`, `cur.close`) are coroutines in the source.  A coroutine's body
  runs only when it is driven (`yield from ...` / run by the event loop); merely
  calling the coroutine function creates an object without executing anything.
  The embedding therefore records two distinct effects for `close`:
  `closeAwait` for `yield from cur.close()` (the remote close actually runs) and
  `closeSpawn` for a bare `cur.close()` call (a coroutine object is created and
  discarded; no remote close happens).
* Each remote operation may raise a transport error; `Remote` carries one flag
  per operation saying whether it raises, plus the data (schema, rows, pages)
  the remote would serve.
-/

namespace PyHive

/-- pandas DataFrame: column labels, rows of cells, and the row index. -/
structure Table where
  columns : List String
  rows : List (List Int)
  index : List Nat
deriving DecidableEq

/-- A page of raw rows; `none` models an absent (`None`) fetch result. -/
abbrev Page := Option (List (List Int))

/-- The first argument of `pd.DataFrame(x, columns=...)` as it occurs in the
source: `None`, a non-empty list of rows, or an existing frame (the cached
empty template `local.empty`). -/
inductive Src
  | noneS
  | rowsS (rs : List (List Int))
  | frameS (t : Table)
deriving DecidableEq

/-- Semantics of `pd.DataFrame(x, columns=cols)` for the three `Src` shapes.
`None` gives an empty frame with the given columns; a row list gets the fresh
index `range(len(rs))`; an existing frame keeps its rows and index (in the
source the frame passed here is always the cached template, whose columns are
exactly `cols`, so column selection is the identity). -/
def frameOf : Src → List String → Table
  | .noneS, cols => ⟨cols, [], []⟩
  | .rowsS rs, cols => ⟨cols, rs, List.range rs.length⟩
  | .frameS t, cols => ⟨cols, t.rows, t.index⟩

/-- Model of `data.index += k`. -/
def shiftIndex (t : Table) (k : Nat) : Table :=
  ⟨t.columns, t.rows, t.index.map (fun i => i + k)⟩

/-- Model of `data[:0].copy()`: zero-row slice keeping the columns. -/
def takeZero (t : Table) : Table := ⟨t.columns, [], []⟩

/-- The mutable namespace `local` inside `AioHive.iter`: running row offset and
the lazily cached empty-table template. -/
structure LocalState where
  offset : Nat
  empty : Option Table
deriving DecidableEq

/-- Model of `(yield from chunk_co) or local.empty` fed to `pd.DataFrame`: a falsy fetch
result (`None` or `[]`) is replaced by `local.empty`, which may itself still be
`None`. -/
def orEmpty (page : Page) (empty : Option Table) : Src :=
  match page with
  | some rs =>
      if rs = [] then (match empty with | some t => .frameS t | none => .noneS)
      else .rowsS rs
  | none => match empty with | some t => .frameS t | none => .noneS

/-- The body of `to_frame(chunk_co)` once the page has been fetched:
build the frame with the cursor's columns, shift its index by the running
offset, advance the offset by the frame's row count, and cache the zero-row
template on the first call. -/
def to_frame (cols : List String) (st : LocalState) (page : Page) :
    Table × LocalState :=
  let data := shiftIndex (frameOf (orEmpty page st.empty) cols) st.offset
  let offset := st.offset + data.rows.length
  let empty := match st.empty with
    | none => some (takeZero data)
    | some e => some e
  (data, ⟨offset, empty⟩)

/-- Driving every chunk coroutine of one `AioHive.iter` invocation in order:
the sequence of tables produced by successive `to_frame` calls. -/
def runChunks (cols : List String) (st : LocalState) : List Page → List Table
  | [] => []
  | p :: ps =>
      let r := to_frame cols st p
      r.1 :: runChunks cols r.2 ps

/-- Rows of the whole result set: pages concatenated, absent pages contributing
nothing. -/
def joinPages (ps : List Page) : List (List Int) :=
  (ps.map (fun p => p.getD [])).flatten

/-- Concatenation of frames that share column labels, as `pd.concat` does it:
rows are appended and the (already shifted) indexes are appended. -/
def concatAll (cols : List String) (ts : List Table) : Table :=
  ⟨cols, (ts.map Table.rows).flatten, (ts.map Table.index).flatten⟩

/-- A single full materialization: `pd.DataFrame(rows, columns=cols)` for the
complete result set. -/
def fullFrame (rows : List (List Int)) (cols : List String) : Table :=
  ⟨cols, rows, List.range rows.length⟩

/-- Invariant on `local`: whenever the template is cached it is a zero-row
frame with the cursor's columns. -/
def stOK (cols : List String) (st : LocalState) : Prop :=
  ∀ e, st.empty = some e → e.rows = [] ∧ e.index = [] ∧ e.columns = cols

/-! ## Effect traces of the remote cursor protocol -/

/-- One observable remote-protocol step.  `closeAwait` is a driven
`yield from cur.close()`; `closeSpawn` is a bare `cur.close()` call that only
creates a coroutine object, so the remote close never executes. -/
inductive Eff
  | openCursor
  | executeQ
  | getSchema
  | fetchPage
  | closeAwait
  | closeSpawn
deriving DecidableEq

/-- How many times effect `e` occurs in a trace. -/
def countEff (e : Eff) : List Eff → Nat
  | [] => 0
  | x :: xs => (if x = e then 1 else 0) + countEff e xs

/-- Transport errors, one per failing remote operation. -/
inductive Err
  | openE
  | execE
  | schemaE
  | fetchE
  | closeE
deriving DecidableEq

/-- The remote side of one query: the schema (already projected to the
`columnName` fields the source extracts), the result rows served to a single
`cur.fetch`, the page stream served to `cur.iter`, and one flag per operation
saying whether that operation raises a transport error (`fetchFails = some i`
means the i-th page fetch raises). -/
structure Remote where
  schema : List String
  rows : List (List Int)
  pages : List Page
  openFails : Bool
  execFails : Bool
  schemaFails : Bool
  fetchFails : Option Nat
  closeFails : Bool
deriving DecidableEq

/-- Model of `AioHive.execute`: open cursor, then `try: execute` with
`finally: yield from cur.close()`.  If the open itself raises there is no
cursor and nothing to close; otherwise the close coroutine is always driven,
and (Python `try/finally` semantics) an error raised by the close replaces the
body's outcome. -/
def executeRun (r : Remote) : List Eff × Except Err Unit :=
  if r.openFails then ([.openCursor], .error .openE)
  else
    let bodyRes : Except Err Unit := if r.execFails then .error .execE else .ok ()
    let closeRes : Except Err Unit := if r.closeFails then .error .closeE else .ok ()
    ([.openCursor, .executeQ, .closeAwait],
     match closeRes with
     | .error e => .error e
     | .ok _ => bodyRes)

/-- The `try` body of `AioHive.fetch`: execute, get schema, fetch one page of at
most `c` rows (`cur.fetch(maxRows=chunk_size)` returns the first
`min c (r.rows.length)` rows), and build `pd.DataFrame(page or None, columns)`. -/
def fetchBody (r : Remote) (c : Nat) : List Eff × Except Err Table :=
  if r.execFails then ([.executeQ], .error .execE)
  else if r.schemaFails then ([.executeQ, .getSchema], .error .schemaE)
  else if r.fetchFails = some 0 then
    ([.executeQ, .getSchema, .fetchPage], .error .fetchE)
  else
    let page := r.rows.take c
    ([.executeQ, .getSchema, .fetchPage],
     .ok (frameOf (if page = [] then .noneS else .rowsS page) r.schema))

/-- Model of `AioHive.fetch`: open cursor, run `fetchBody` under
`finally: yield from cur.close()`. -/
def fetchRun (r : Remote) (c : Nat) : List Eff × Except Err Table :=
  if r.openFails then ([.openCursor], .error .openE)
  else
    let body := fetchBody r c
    let closeRes : Except Err Unit := if r.closeFails then .error .closeE else .ok ()
    (Eff.openCursor :: body.1 ++ [Eff.closeAwait],
     match closeRes with
     | .error e => .error e
     | .ok _ => body.2)

/-- Construction phase of `AioHive.iter`: open cursor, then
`try: execute; getSchema; ...; return closing()` with
`except: cur.close(); raise`.  The `cur.close()` in the handler has no
`yield from`, so it only spawns a coroutine (`closeSpawn`).  On success the
pending page stream is returned. -/
def iterConstruct (r : Remote) : List Eff × Except Err (List Page) :=
  if r.openFails then ([.openCursor], .error .openE)
  else if r.execFails then
    ([.openCursor, .executeQ, .closeSpawn], .error .execE)
  else if r.schemaFails then
    ([.openCursor, .executeQ, .getSchema, .closeSpawn], .error .schemaE)
  else ([.openCursor, .executeQ, .getSchema], .ok r.pages)

/-- Number of page fetches actually driven when the consumer pulls and awaits
up to `k` chunks of the `closing()` generator: bounded by the page stream, and
cut short at a failing fetch (the failing fetch itself still runs). -/
def drivenFetches (r : Remote) (k : Nat) : Nat :=
  let avail := min k r.pages.length
  match r.fetchFails with
  | some i => if i < avail then i + 1 else avail
  | none => avail

/-- Full trace of one `AioHive.iter` call whose consumer stops after `k`
chunks (by exhaustion when `k ≥ pages.length`, by early abandonment when
`k < pages.length`, or at a failing fetch).  Whenever the `closing()` generator
is finalized — normal exhaustion, `GeneratorExit` on abandonment, or abandonment
after a fetch error — its `finally:` runs `cur.close()` without `yield from`,
producing only a `closeSpawn`. -/
def iterRunTrace (r : Remote) (k : Nat) : List Eff :=
  let c := iterConstruct r
  match c.2 with
  | .error _ => c.1
  | .ok _ => c.1 ++ List.replicate (drivenFetches r k) .fetchPage ++ [.closeSpawn]

/-! ## Constructor (`AioHive.__init__`) and its configuration parsing -/

/-- One property element of the configuration file: the result of `findtext`
for its name child and for its value child, each `none` when that child
element is missing. -/
structure ConfigProp where
  nameTxt : Option String
  valueTxt : Option String
deriving DecidableEq

/-- The `config` argument: its Python truthiness (an empty path string is
falsy) and the property elements the parsed tree would visit. -/
structure ConfigSrc where
  truthy : Bool
  props : List ConfigProp
deriving DecidableEq

/-- Python truthiness of the `host` argument (`None` and the empty string are falsy). -/
def truthyStr : Option String → Bool
  | none => false
  | some s => s ≠ ""

/-- Python truthiness of the `config` argument. -/
def truthyCfg : Option ConfigSrc → Bool
  | none => false
  | some c => c.truthy

/-- Errors raised by `AioHive.__init__`: the `TypeError` for bad argument
combinations, the `ValueError` for a missing metastore property, and the
`AttributeError` from `uri.split` when the matching property has no value. -/
inductive InitErr
  | typeErr
  | valueErr
  | attrErr
deriving DecidableEq

/-- Host extraction from the metastore URI: split on the scheme separator and
take the last piece, then split on the port colon and take the first piece. -/
def hostFromUri (uri : String) : String :=
  (((uri.splitOn "://").getLastD "").splitOn ":").headD ""

/-- The first property whose name text equals `hive.metastore.uris` (the loop
breaks at the first match); `some v` where `v` is its value text. -/
def findUri (props : List ConfigProp) : Option (Option String) :=
  (props.find? (fun p => p.nameTxt = some "hive.metastore.uris")).map
    (fun p => p.valueTxt)

/-- Construction side effects: `aiohs2.Client(host=..., port=...)` is the only
step that can touch the network. -/
inductive InitEff
  | mkClient (host : Option String) (port : Nat)
deriving DecidableEq

/-- The constructed client: the endpoint handed to `aiohs2.Client`. -/
structure Client where
  host : Option String
  port : Nat
deriving DecidableEq

/-- Model of `AioHive.__init__(host, config, port)`: raise `TypeError` when both
arguments are `None` or both are truthy; then, when `config` is truthy, scan
its properties for `hive.metastore.uris` (raising `ValueError` via the else
branch of the loop when absent, and `AttributeError` when the property has no
value text) and replace `host` with the host extracted from the URI; finally
build the client. -/
def hiveInit (host : Option String) (config : Option ConfigSrc) (port : Nat) :
    List InitEff × Except InitErr Client :=
  if (host = none ∧ config = none) ∨ (truthyCfg config ∧ truthyStr host) then
    ([], .error .typeErr)
  else if h : truthyCfg config then
    match config, h with
    | some cfg, _ =>
      match findUri cfg.props with
      | none => ([], .error .valueErr)
      | some none => ([], .error .attrErr)
      | some (some uri) =>
          let h2 := hostFromUri uri
          ([.mkClient (some h2) port], .ok ⟨some h2, port⟩)
  else ([.mkClient host port], .ok ⟨host, port⟩)

/-! ## `SyncedHive.iter` -/

/-- pandas `df.empty`: true when the frame has no rows or no columns. -/
def tableEmpty (t : Table) : Bool := t.rows.isEmpty || t.columns.isEmpty

/-- Model of `SyncedHive.iter`: drive each chunk coroutine in order and yield the
resulting frame only `if not data.empty`. -/
def syncedIterRun (ts : List Table) : List Table :=
  ts.filter (fun t => !tableEmpty t)

/-! ## Helper lemmas -/

lemma countEff_append (e : Eff) (l l' : List Eff) :
    countEff e (l ++ l') = countEff e l + countEff e l' := by
  induction l with
  | nil => simp [countEff]
  | cons x xs ih => simp [countEff, ih]; omega

lemma countEff_replicate (e e' : Eff) (n : Nat) :
    countEff e (List.replicate n e') = if e' = e then n else 0 := by
  induction n with
  | zero => simp [countEff]
  | succ n ih => simp [List.replicate, countEff, ih]; split <;> omega

lemma range_map_split (a L k : Nat) :
    (List.range (a + L)).map (fun i => i + k)
      = (List.range a).map (fun i => i + k)
        ++ (List.range L).map (fun i => i + (k + a)) := by
  rw [List.range_add, List.map_append, List.map_map]
  congr 1
  apply List.map_congr_left
  intro i _
  simp only [Function.comp_apply]
  omega

lemma frameOf_columns (s : Src) (cols : List String) :
    (frameOf s cols).columns = cols := by
  cases s <;> rfl

/-- What one `to_frame` step produces from a well-formed state: the emitted
table, the new offset, and preservation of the template invariant. -/
lemma to_frame_step (cols : List String) (st : LocalState) (p : Page)
    (h : stOK cols st) :
    (to_frame cols st p).1.columns = cols ∧
    (to_frame cols st p).1.rows = p.getD [] ∧
    (to_frame cols st p).1.index
      = (List.range (p.getD []).length).map (fun i => i + st.offset) ∧
    (to_frame cols st p).2.offset = st.offset + (p.getD []).length ∧
    stOK cols (to_frame cols st p).2 := by
  have hsrc : frameOf (orEmpty p st.empty) cols
      = ⟨cols, p.getD [], List.range (p.getD []).length⟩ := by
    match p with
    | none =>
        match he : st.empty with
        | none => simp [orEmpty, frameOf, he]
        | some e =>
            have := h e he
            simp [orEmpty, frameOf, he, this.1, this.2.1, List.range_zero]
    | some rs =>
        by_cases hrs : rs = []
        · subst hrs
          match he : st.empty with
          | none => simp [orEmpty, frameOf, he]
          | some e =>
              have := h e he
              simp [orEmpty, frameOf, he, this.1, this.2.1, List.range_zero]
        · simp [orEmpty, frameOf, hrs]
  refine ⟨?_, ?_, ?_, ?_, ?_⟩
  · simp [to_frame, shiftIndex, hsrc]
  · simp [to_frame, shiftIndex, hsrc]
  · simp [to_frame, shiftIndex, hsrc]
  · simp [to_frame, shiftIndex, hsrc]
  · intro e he
    simp only [to_frame] at he
    match hst : st.empty with
    | none =>
        simp only [hst] at he
        rw [Option.some_inj] at he
        subst he
        refine ⟨rfl, rfl, ?_⟩
        simp [takeZero, shiftIndex, frameOf_columns]
    | some e0 =>
        simp only [hst] at he
        rw [Option.some_inj] at he
        subst he
        exact h e0 hst

/-- The core chunk-sequencing lemma, generalized over the running state:
every emitted table carries the cursor's columns, the emitted rows concatenate
to the pages' rows, and the emitted indexes concatenate to a contiguous range
starting at the current offset. -/
lemma runChunks_spec (cols : List String) (ps : List Page) (st : LocalState)
    (h : stOK cols st) :
    (∀ t ∈ runChunks cols st ps, t.columns = cols) ∧
    ((runChunks cols st ps).map Table.rows).flatten = joinPages ps ∧
    ((runChunks cols st ps).map Table.index).flatten
      = (List.range (joinPages ps).length).map (fun i => i + st.offset) := by
  induction ps generalizing st with
  | nil => simp [runChunks, joinPages]
  | cons p ps ih =>
      obtain ⟨hc, hr, hi, ho, hinv⟩ := to_frame_step cols st p h
      obtain ⟨ihc, ihr, ihi⟩ := ih (to_frame cols st p).2 hinv
      refine ⟨?_, ?_, ?_⟩
      · intro t ht
        simp only [runChunks, List.mem_cons] at ht
        rcases ht with rfl | ht
        · exact hc
        · exact ihc t ht
      · simp only [runChunks, List.map_cons, List.flatten_cons]
        rw [hr, ihr]
        simp [joinPages]
      · simp only [runChunks, List.map_cons, List.flatten_cons]
        rw [hi, ihi, ho]
        have : joinPages (p :: ps) = p.getD [] ++ joinPages ps := by
          simp [joinPages]
        rw [this, List.length_append, range_map_split]

/-- Demonstration remote: two columns, three rows split into two pages, no
transport failures. -/
def rDemo : Remote :=
  ⟨["a", "b"], [[1, 2], [3, 4], [5, 6]],
   [some [[1, 2], [3, 4]], some [[5, 6]]],
   false, false, false, none, false⟩

/-! ## Claims -/

/-- C2: for every query and chunk size, concatenating in order all tables
yielded by `AioHive.iter` reproduces the single full materialization of the
query — same columns, same rows, and a contiguous zero-based strictly
increasing index (the pages are quantified over every possible page
decomposition the remote cursor could serve, including empty and absent
pages). -/
theorem fetchChunks_concat_eq_full (cols : List String) (ps : List Page) :
    concatAll cols (runChunks cols ⟨0, none⟩ ps)
        = fullFrame (joinPages ps) cols ∧
    (∀ t ∈ runChunks cols ⟨0, none⟩ ps, t.columns = cols) ∧
    (concatAll cols (runChunks cols ⟨0, none⟩ ps)).index
        = List.range (joinPages ps).length := by
  have h := runChunks_spec cols ps ⟨0, none⟩ (fun e he => nomatch he)
  have hidx : ((runChunks cols ⟨0, none⟩ ps).map Table.index).flatten
      = List.range (joinPages ps).length := by
    rw [h.2.2]
    simp
  exact ⟨by simp [concatAll, fullFrame, h.2.1, hidx], h.1, hidx⟩

/-- C4: the blocking facade's iterator never yields a zero-row table: it
yields, in order, exactly the non-empty tables of the underlying async
sequence, and a query with zero matching rows yields no tables at all. -/
theorem synced_iter_skips_empty (cols : List String) (ps : List Page)
    (hcols : cols ≠ []) :
    syncedIterRun (runChunks cols ⟨0, none⟩ ps)
        = (runChunks cols ⟨0, none⟩ ps).filter (fun t => !t.rows.isEmpty) ∧
    (∀ t ∈ syncedIterRun (runChunks cols ⟨0, none⟩ ps), t.rows ≠ []) ∧
    (joinPages ps = [] → syncedIterRun (runChunks cols ⟨0, none⟩ ps) = []) := by
  have h := runChunks_spec cols ps ⟨0, none⟩ (fun e he => nomatch he)
  have hfe : ∀ t ∈ runChunks cols ⟨0, none⟩ ps,
      (!tableEmpty t) = !t.rows.isEmpty := by
    intro t ht
    have : t.columns = cols := h.1 t ht
    simp [tableEmpty, this, hcols]
  refine ⟨List.filter_congr hfe, ?_, ?_⟩
  · intro t ht
    have := List.of_mem_filter ht
    simp only [tableEmpty, Bool.not_eq_eq_eq_not, Bool.not_true,
      Bool.or_eq_false_iff] at this
    simp [List.isEmpty_iff] at this
    exact this.1
  · intro hz
    have hrows : ((runChunks cols ⟨0, none⟩ ps).map Table.rows).flatten = [] := by
      rw [h.2.1, hz]
    rw [List.flatten_eq_nil_iff] at hrows
    rw [syncedIterRun, List.filter_eq_nil_iff]
    intro t ht
    have : t.rows = [] := by
      refine hrows t.rows ?_
      exact List.mem_map_of_mem Table.rows ht
    simp [tableEmpty, this]

/-- C10: the cached empty-table template is created, on the first `to_frame`
call, as a zero-row copy of the first table produced (whatever that table is);
once cached it is never replaced; and converting an empty or absent page
yields a zero-row table and leaves the running offset unchanged, preserving
the template invariant. -/
theorem chunk_empty_template_cache (cols : List String) (st : LocalState)
    (p : Page) (h : stOK cols st) :
    (st.empty = none →
      (to_frame cols st p).2.empty = some (takeZero (to_frame cols st p).1)) ∧
    (∀ e, st.empty = some e → (to_frame cols st p).2.empty = some e) ∧
    ((p = none ∨ p = some []) →
      (to_frame cols st p).1.rows = [] ∧
      (to_frame cols st p).2.offset = st.offset) ∧
    stOK cols (to_frame cols st p).2 := by
  obtain ⟨hc, hr, hi, ho, hinv⟩ := to_frame_step cols st p h
  refine ⟨?_, ?_, ?_, hinv⟩
  · intro he
    simp [to_frame, he]
  · intro _ he
    simp [to_frame, he]
  · intro hp
    have hrows : (to_frame cols st p).1.rows = [] := by
      rcases hp with rfl | rfl <;> simpa using hr
    refine ⟨hrows, ?_⟩
    rw [ho]
    rcases hp with rfl | rfl <;> simp

/-- witness for C10 at a concrete input: initial state, non-empty first
page. -/
theorem chunk_empty_template_cache_witness :
    ((⟨0, none⟩ : LocalState).empty = none →
      (to_frame ["a"] ⟨0, none⟩ (some [[7]])).2.empty
        = some (takeZero (to_frame ["a"] ⟨0, none⟩ (some [[7]])).1)) ∧
    (∀ e, (⟨0, none⟩ : LocalState).empty = some e →
      (to_frame ["a"] ⟨0, none⟩ (some [[7]])).2.empty = some e) ∧
    (((some [[7]] : Page) = none ∨ (some [[7]] : Page) = some []) →
      (to_frame ["a"] ⟨0, none⟩ (some [[7]])).1.rows = [] ∧
      (to_frame ["a"] ⟨0, none⟩ (some [[7]])).2.offset
        = (⟨0, none⟩ : LocalState).offset) ∧
    stOK ["a"] (to_frame ["a"] ⟨0, none⟩ (some [[7]])).2 :=
  chunk_empty_template_cache ["a"] ⟨0, none⟩ (some [[7]])
    (fun _ he => nomatch he)

/-- witness for C4 at a concrete input: one non-empty page between two empty
ones; only the non-empty table comes out. -/
theorem synced_iter_skips_empty_witness :
    syncedIterRun (runChunks ["a"] ⟨0, none⟩ [some [], some [[7]], none])
        = (runChunks ["a"] ⟨0, none⟩ [some [], some [[7]], none]).filter
            (fun t => !t.rows.isEmpty) ∧
    (∀ t ∈ syncedIterRun (runChunks ["a"] ⟨0, none⟩ [some [], some [[7]], none]),
        t.rows ≠ []) ∧
    (joinPages [some [], some [[7]], none] = [] →
      syncedIterRun (runChunks ["a"] ⟨0, none⟩ [some [], some [[7]], none]) = []) :=
  synced_iter_skips_empty ["a"] [some [], some [[7]], none] (by decide)

/-- C8: within one `AioHive.iter` invocation the schema is fetched exactly
once, during construction and before any page fetch (the trace is exactly
open, execute, getSchema, then the page fetches, then the finalizer), and
every table produced from that cursor — substituted empty tables included —
carries the column labels taken from that schema. -/
theorem iter_schema_once_columns_stable (r : Remote) (k : Nat)
    (h1 : r.openFails = false) (h2 : r.execFails = false)
    (h3 : r.schemaFails = false) :
    countEff .getSchema (iterRunTrace r k) = 1 ∧
    iterRunTrace r k
      = [.openCursor, .executeQ, .getSchema]
          ++ List.replicate (drivenFetches r k) .fetchPage ++ [.closeSpawn] ∧
    (∀ t ∈ runChunks r.schema ⟨0, none⟩ r.pages, t.columns = r.schema) := by
  have hc : iterConstruct r
      = ([.openCursor, .executeQ, .getSchema], .ok r.pages) := by
    simp [iterConstruct, h1, h2, h3]
  have htr : iterRunTrace r k
      = [.openCursor, .executeQ, .getSchema]
          ++ List.replicate (drivenFetches r k) .fetchPage ++ [.closeSpawn] := by
    simp [iterRunTrace, hc]
  refine ⟨?_, htr, (runChunks_spec r.schema r.pages ⟨0, none⟩
    (fun e he => nomatch he)).1⟩
  rw [htr]
  simp [countEff_append, countEff_replicate, countEff]

/-- witness for C8: the demonstration remote, consumer pulling both chunks. -/
theorem iter_schema_once_columns_stable_witness :
    countEff .getSchema (iterRunTrace rDemo 2) = 1 ∧
    iterRunTrace rDemo 2
      = [.openCursor, .executeQ, .getSchema]
          ++ List.replicate (drivenFetches rDemo 2) .fetchPage ++ [.closeSpawn] ∧
    (∀ t ∈ runChunks rDemo.schema ⟨0, none⟩ rDemo.pages,
        t.columns = rDemo.schema) :=
  iter_schema_once_columns_stable rDemo 2 rfl rfl rfl

/-- C1 (defect): on no exit path of `AioHive.iter` is the cursor's close
coroutine ever driven — the `finally:` block of `closing()` and the construction-failure
handler both call `cur.close()` without `yield from`, so the remote close
never executes (compare `execute`/`fetch`, which use `yield from cur.close()`).
The first conjunct covers every remote behaviour and every consumption amount
(exhaustion, early abandonment, fetch error, construction failure); the rest
evaluates a concrete fully-consumed two-page run, where exactly one close
coroutine is spawned-and-dropped and no close is awaited. -/
theorem iter_close_never_driven :
    (∀ (r : Remote) (k : Nat), countEff .closeAwait (iterRunTrace r k) = 0) ∧
    iterRunTrace rDemo 2
      = [.openCursor, .executeQ, .getSchema, .fetchPage, .fetchPage,
         .closeSpawn] ∧
    countEff .closeAwait (iterRunTrace rDemo 2) = 0 ∧
    countEff .closeSpawn (iterRunTrace rDemo 2) = 1 := by
  refine ⟨?_, by decide, by decide, by decide⟩
  intro r k
  by_cases ho : r.openFails = true
  · simp [iterRunTrace, iterConstruct, ho, countEff]
  · by_cases hx : r.execFails = true
    · simp [iterRunTrace, iterConstruct, ho, hx, countEff]
    · by_cases hs : r.schemaFails = true
      · simp [iterRunTrace, iterConstruct, ho, hx, hs, countEff]
      · simp [iterRunTrace, iterConstruct, ho, hx, hs,
          countEff_append, countEff_replicate, countEff]

/-- C3: the method `AioHive.fetch` performs at most one page fetch on every path; on a
failure-free run it performs exactly one and returns the first page — at most
`c` rows — as a table labeled with the schema columns (the empty/absent page
degenerates to the empty table with those columns); it never loops over
further pages even when the result set is larger than `c`. -/
theorem fetch_single_page (r : Remote) (c : Nat)
    (h1 : r.openFails = false) (h2 : r.execFails = false)
    (h3 : r.schemaFails = false) (h4 : r.fetchFails = none)
    (h5 : r.closeFails = false) :
    (∀ (r' : Remote) (c' : Nat), countEff .fetchPage (fetchRun r' c').1 ≤ 1) ∧
    countEff .fetchPage (fetchRun r c).1 = 1 ∧
    (fetchRun r c).2 = .ok (fullFrame (r.rows.take c) r.schema) := by
  have hbody : fetchBody r c
      = ([.executeQ, .getSchema, .fetchPage],
         .ok (frameOf (if r.rows.take c = [] then .noneS
            else .rowsS (r.rows.take c)) r.schema)) := by
    simp [fetchBody, h2, h3, h4]
  have hframe : frameOf (if r.rows.take c = [] then .noneS
      else .rowsS (r.rows.take c)) r.schema
      = fullFrame (r.rows.take c) r.schema := by
    by_cases hp : r.rows.take c = []
    · simp [hp, frameOf, fullFrame]
    · simp [hp, frameOf, fullFrame]
  refine ⟨?_, ?_, ?_⟩
  · intro r' c'
    simp only [fetchRun]
    split
    · simp [countEff]
    · simp only [fetchBody]
      split
      · simp [countEff_append, countEff]
      · split
        · simp [countEff_append, countEff]
        · split
          · simp [countEff_append, countEff]
          · simp [countEff_append, countEff]
  · simp [fetchRun, h1, hbody, countEff_append, countEff]
  · have h2nd : (fetchRun r c).2 = (fetchBody r c).2 := by
      simp [fetchRun, h1, h5]
    rw [h2nd, hbody]
    exact congrArg Except.ok hframe

/-- witness for C3: chunk size 2 against a three-row result returns only the
first two rows after exactly one fetch. -/
theorem fetch_single_page_witness :
    (∀ (r' : Remote) (c' : Nat), countEff .fetchPage (fetchRun r' c').1 ≤ 1) ∧
    countEff .fetchPage (fetchRun rDemo 2).1 = 1 ∧
    (fetchRun rDemo 2).2 = .ok (fullFrame (rDemo.rows.take 2) rDemo.schema) :=
  fetch_single_page rDemo 2 rfl rfl rfl rfl rfl

/-- C5: once the cursor is opened, `AioHive.execute` and `AioHive.fetch` each
record exactly one cursor open and exactly one driven cursor close on every
path, and (when the close itself does not raise) the original error of a
failing execute, schema or fetch step is the one propagated to the caller. -/
theorem execute_fetch_close_once (r : Remote) (c : Nat)
    (h1 : r.openFails = false) :
    countEff .openCursor (executeRun r).1 = 1 ∧
    countEff .closeAwait (executeRun r).1 = 1 ∧
    countEff .openCursor (fetchRun r c).1 = 1 ∧
    countEff .closeAwait (fetchRun r c).1 = 1 ∧
    (r.closeFails = false →
      (r.execFails = true →
        (executeRun r).2 = .error .execE ∧ (fetchRun r c).2 = .error .execE) ∧
      (r.execFails = false → r.schemaFails = true →
        (fetchRun r c).2 = .error .schemaE) ∧
      (r.execFails = false → r.schemaFails = false → r.fetchFails = some 0 →
        (fetchRun r c).2 = .error .fetchE)) := by
  have hbodyEff : (fetchBody r c).1 = [Eff.executeQ] ∨
      (fetchBody r c).1 = [Eff.executeQ, Eff.getSchema] ∨
      (fetchBody r c).1 = [Eff.executeQ, Eff.getSchema, Eff.fetchPage] := by
    simp only [fetchBody]
    split
    · exact Or.inl rfl
    · split
      · exact Or.inr (Or.inl rfl)
      · split
        · exact Or.inr (Or.inr rfl)
        · exact Or.inr (Or.inr rfl)
  refine ⟨?_, ?_, ?_, ?_, ?_⟩
  · simp [executeRun, h1, countEff]
  · simp [executeRun, h1, countEff]
  · simp only [fetchRun, h1, Bool.false_eq_true, if_false]
    rcases hbodyEff with hb | hb | hb <;>
      simp [hb, countEff_append, countEff]
  · simp only [fetchRun, h1, Bool.false_eq_true, if_false]
    rcases hbodyEff with hb | hb | hb <;>
      simp [hb, countEff_append, countEff]
  · intro hcl
    refine ⟨?_, ?_, ?_⟩
    · intro hex
      constructor
      · simp [executeRun, h1, hcl, hex]
      · simp [fetchRun, fetchBody, h1, hcl, hex]
    · intro hex hsc
      simp [fetchRun, fetchBody, h1, hcl, hex, hsc]
    · intro hex hsc hf
      simp [fetchRun, fetchBody, h1, hcl, hex, hsc, hf]

/-- witness for C5: a remote whose execute raises; the cursor is still opened
once and closed once, and the execute error is propagated. -/
theorem execute_fetch_close_once_witness :
    countEff .openCursor
        (executeRun ⟨["a"], [], [], false, true, false, none, false⟩).1 = 1 ∧
    countEff .closeAwait
        (executeRun ⟨["a"], [], [], false, true, false, none, false⟩).1 = 1 ∧
    countEff .openCursor
        (fetchRun ⟨["a"], [], [], false, true, false, none, false⟩ 5).1 = 1 ∧
    countEff .closeAwait
        (fetchRun ⟨["a"], [], [], false, true, false, none, false⟩ 5).1 = 1 ∧
    ((⟨["a"], [], [], false, true, false, none, false⟩ : Remote).closeFails
        = false →
      ((⟨["a"], [], [], false, true, false, none, false⟩ : Remote).execFails
          = true →
        (executeRun ⟨["a"], [], [], false, true, false, none, false⟩).2
            = .error .execE ∧
        (fetchRun ⟨["a"], [], [], false, true, false, none, false⟩ 5).2
            = .error .execE) ∧
      ((⟨["a"], [], [], false, true, false, none, false⟩ : Remote).execFails
          = false →
        (⟨["a"], [], [], false, true, false, none, false⟩ : Remote).schemaFails
          = true →
        (fetchRun ⟨["a"], [], [], false, true, false, none, false⟩ 5).2
            = .error .schemaE) ∧
      ((⟨["a"], [], [], false, true, false, none, false⟩ : Remote).execFails
          = false →
        (⟨["a"], [], [], false, true, false, none, false⟩ : Remote).schemaFails
          = false →
        (⟨["a"], [], [], false, true, false, none, false⟩ : Remote).fetchFails
          = some 0 →
        (fetchRun ⟨["a"], [], [], false, true, false, none, false⟩ 5).2
            = .error .fetchE)) :=
  execute_fetch_close_once ⟨["a"], [], [], false, true, false, none, false⟩ 5 rfl

/-- Demonstration configuration: truthy path, one matching property. -/
def cfgDemo : ConfigSrc :=
  ⟨true, [⟨some "fs.default.name", some "hdfs://nn:8020"⟩,
          ⟨some "hive.metastore.uris", some "thrift://meta:9083"⟩]⟩

/-- Demonstration configuration lacking the metastore-URI property. -/
def cfgNoUri : ConfigSrc :=
  ⟨true, [⟨some "fs.default.name", some "hdfs://nn:8020"⟩, ⟨none, some "x"⟩]⟩

/-- C6: supplying both `host` and `config` (as truthy values), or neither,
raises the `TypeError` at construction time with no client built and no
network effect. -/
theorem init_both_or_neither_fails (h : String) (cfg : ConfigSrc) (port : Nat)
    (hh : h ≠ "") (hc : cfg.truthy = true) :
    hiveInit (some h) (some cfg) port = ([], .error .typeErr) ∧
    hiveInit none none port = ([], .error .typeErr) := by
  constructor
  · simp [hiveInit, truthyCfg, truthyStr, hh, hc]
  · simp [hiveInit]

/-- witness for C6 at concrete arguments. -/
theorem init_both_or_neither_fails_witness :
    hiveInit (some "myhost") (some cfgDemo) 10000 = ([], .error .typeErr) ∧
    hiveInit none none 10000 = ([], .error .typeErr) :=
  init_both_or_neither_fails "myhost" cfgDemo 10000 (by decide) rfl

/-- C7: a configuration resource in which no property is named
`hive.metastore.uris` makes construction raise the `ValueError`, with no
client built and no connection attempt. -/
theorem init_missing_uri_fails (cfg : ConfigSrc) (port : Nat)
    (hc : cfg.truthy = true)
    (hmiss : ∀ p ∈ cfg.props, p.nameTxt ≠ some "hive.metastore.uris") :
    hiveInit none (some cfg) port = ([], .error .valueErr) := by
  have hfind : findUri cfg.props = none := by
    rw [findUri, Option.map_eq_none', List.find?_eq_none]
    intro p hp
    simpa using hmiss p hp
  simp [hiveInit, truthyCfg, truthyStr, hc, hfind]

/-- witness for C7 at a concrete configuration. -/
theorem init_missing_uri_fails_witness :
    hiveInit none (some cfgNoUri) 10000 = ([], .error .valueErr) :=
  init_missing_uri_fails cfgNoUri 10000 rfl (by decide)

/-- C9: a falsy but non-`None` host (the empty string) together with a truthy
config passes the both-supplied check — `config and host` only rejects truthy
hosts — and the host extracted from the configuration is the one used to build
the client. -/
theorem init_falsy_host_uses_config (cfg : ConfigSrc) (port : Nat)
    (uri : String) (hc : cfg.truthy = true)
    (hfind : findUri cfg.props = some (some uri)) :
    hiveInit (some "") (some cfg) port
      = ([.mkClient (some (hostFromUri uri)) port],
         .ok ⟨some (hostFromUri uri), port⟩) := by
  simp [hiveInit, truthyCfg, truthyStr, hc, hfind]

/-- witness for C9: empty-string host plus the demonstration config succeeds
and the client's host is the one parsed out of the metastore URI. -/
theorem init_falsy_host_uses_config_witness :
    hiveInit (some "") (some cfgDemo) 10000
      = ([.mkClient (some (hostFromUri "thrift://meta:9083")) 10000],
         .ok ⟨some (hostFromUri "thrift://meta:9083"), 10000⟩) :=
  init_falsy_host_uses_config cfgDemo 10000 "thrift://meta:9083" rfl rfl

end PyHive
